import Mathlib

/-!
Verification of the dynamic vtable-construction and call-adaptation engine
of `comtypes/_vtbl.py`: a shallow embedding of its error translation,
vtable building, interface assembly, reference counting, interface
querying, dispatch-map construction and late-bound invocation, together
with theorems settling the specification's claims about them.
-/

namespace Comtypes

/-! ## HRESULT constants (`comtypes.hresult`)

Standard signed 32-bit COM result codes, imported by `_vtbl.py` from
`comtypes.hresult` (values are the universal COM ABI constants). -/

def S_OK : Int := 0

def S_FALSE : Int := 1

def E_NOTIMPL : Int := -2147467263

def E_NOINTERFACE : Int := -2147467262

def E_FAIL : Int := -2147467259

def E_INVALIDARG : Int := -2147024809

def DISP_E_MEMBERNOTFOUND : Int := -2147352573

def DISP_E_BADINDEX : Int := -2147352565

/-! ## Python values

A small universe of Python values as they cross the adapted boundary:
`none` is Python `None`, `tuple` is any fixed-size ordered sequence. -/

inductive PyVal where
  | none : PyVal
  | int (n : Int) : PyVal
  | str (s : String) : PyVal
  | tuple (xs : List PyVal) : PyVal

mutual

/-- Decidable equality on `PyVal` (the automatic derivation does not
handle the nested `List`). -/
def PyVal.decEq : (a b : PyVal) → Decidable (a = b)
  | .none, .none => isTrue rfl
  | .none, .int _ => isFalse (fun h => PyVal.noConfusion h)
  | .none, .str _ => isFalse (fun h => PyVal.noConfusion h)
  | .none, .tuple _ => isFalse (fun h => PyVal.noConfusion h)
  | .int _, .none => isFalse (fun h => PyVal.noConfusion h)
  | .int n, .int m =>
    if h : n = m then isTrue (by rw [h]) else isFalse (fun hh => by cases hh; exact h rfl)
  | .int _, .str _ => isFalse (fun h => PyVal.noConfusion h)
  | .int _, .tuple _ => isFalse (fun h => PyVal.noConfusion h)
  | .str _, .none => isFalse (fun h => PyVal.noConfusion h)
  | .str _, .int _ => isFalse (fun h => PyVal.noConfusion h)
  | .str s, .str t =>
    if h : s = t then isTrue (by rw [h]) else isFalse (fun hh => by cases hh; exact h rfl)
  | .str _, .tuple _ => isFalse (fun h => PyVal.noConfusion h)
  | .tuple _, .none => isFalse (fun h => PyVal.noConfusion h)
  | .tuple _, .int _ => isFalse (fun h => PyVal.noConfusion h)
  | .tuple _, .str _ => isFalse (fun h => PyVal.noConfusion h)
  | .tuple xs, .tuple ys =>
    match PyVal.decEqList xs ys with
    | isTrue h => isTrue (by rw [h])
    | isFalse h => isFalse (fun hh => by cases hh; exact h rfl)

/-- Decidable equality on lists of `PyVal`. -/
def PyVal.decEqList : (xs ys : List PyVal) → Decidable (xs = ys)
  | [], [] => isTrue rfl
  | [], _ :: _ => isFalse (fun h => List.noConfusion h)
  | _ :: _, [] => isFalse (fun h => List.noConfusion h)
  | x :: xs, y :: ys =>
    match PyVal.decEq x y, PyVal.decEqList xs ys with
    | isTrue h1, isTrue h2 => isTrue (by rw [h1, h2])
    | isFalse h1, _ => isFalse (fun h => by cases h; exact h1 rfl)
    | isTrue _, isFalse h2 => isFalse (fun h => by cases h; exact h2 rfl)

end

instance : DecidableEq PyVal := PyVal.decEq

/-- Python `len(v)`: defined for sequences and strings, raises `TypeError`
(modelled as `Option.none`) for anything else. -/
def pyLen : PyVal → Option Nat
  | .tuple xs => some xs.length
  | .str s => some s.length
  | _ => none

/-- Iterating a Python value: elements of a tuple, characters of a string,
failure (`Option.none`, a raised `TypeError`) otherwise. -/
def pyElems : PyVal → Option (List PyVal)
  | .tuple xs => some xs
  | .str s => some (s.data.map (fun c => PyVal.str (String.mk [c])))
  | _ => none

/-- Rendering a Python value as a message fragment (feeds only the
reported error text, never a result code). -/
def pyStrOf : PyVal → String
  | .none => "None"
  | .int n => toString n
  | .str s => s
  | .tuple _ => "(...)"

/-! ## Error translation helpers (`_vtbl.py` lines 74-107) -/

/-- `HRESULT_FROM_WIN32` from `_vtbl.py`: convert a Windows error code
into a HRESULT value (`None` maps to `0x80000000`; a code with the top
bit set is passed through; otherwise the low 16 bits are merged into the
`FACILITY_WIN32` failure pattern `0x8007xxxx`). -/
def HRESULT_FROM_WIN32 (errcode : Option Int) : Int :=
  match errcode with
  | Option.none => 0x80000000
  | some e =>
    if Int.land e 0x80000000 ≠ 0 then e
    else Int.lor (Int.land e 0xFFFF) 0x80070000

/-- A native-originated exception: `COMError` carries `(hresult, text,
details)`, `WindowsError` carries an optional integer `winerror` code
(`Option.none` models a `WindowsError` whose code is not an `int`). -/
inductive NativeError where
  | comError (hresult : Int) (text : String) (details : PyVal)
  | windowsError (code : Option Int)
deriving DecidableEq

/-- `winerror` from `_vtbl.py`: the windows error code of a `COMError` or
`WindowsError` instance; a `WindowsError` without an integer code yields
the generic `E_FAIL`. -/
def winerror : NativeError → Int
  | .comError hr _ _ => hr
  | .windowsError (some code) => code
  | .windowsError Option.none => E_FAIL

/-- Modelled from the spec: `comtypes.errorinfo.ReportError` (not under
`src/`) attaches the message text to the per-thread rich-error record and
returns the `hresult` it was given ("an explicit
result-with-message-and-code, translated into the native error-result
protocol carrying that code and message"). -/
def ReportError (_text : String) (hresult : Int) : Int := hresult

/-- Modelled from the spec: `comtypes.errorinfo.ReportException` (not
under `src/`) attaches the current exception's description to the
rich-error record and returns the `hresult` it was given. -/
def ReportException (hresult : Int) : Int := hresult

/-- The outcome of invoking the managed (Python) method: a normal return
value, or one of the exception classes distinguished by the adapters in
`_vtbl.py` (`ReturnHRESULT`, `COMError`/`WindowsError`, the
`E_NotImplemented` sentinel, or any other exception). -/
inductive MethodOutcome (α : Type) where
  | ok (result : α)
  | raisedReturnHRESULT (hresult : Int) (text : String)
  | raisedNative (e : NativeError)
  | raisedENotImplemented
  | raisedOther
deriving DecidableEq

/-! ## `catch_errors.call_with_this` (`_vtbl.py` lines 119-146)

The adapter used when the managed method receives the raw native
argument list (its first declared parameter is `this`): the method's
outcome is an optional integer result, translated to a HRESULT. -/

/-- `call_with_this`: translate the managed method's outcome into the
HRESULT returned to the native caller. -/
def call_with_this (outcome : MethodOutcome (Option Int)) : Int :=
  match outcome with
  | .raisedReturnHRESULT hr text => ReportError text hr
  | .raisedNative e => HRESULT_FROM_WIN32 (some (winerror e))
  | .raisedENotImplemented => E_NOTIMPL
  | .raisedOther => ReportException E_FAIL
  | .ok Option.none => S_OK
  | .ok (some r) => r

/-- `catch_errors` marks the wrapper with `has_outargs`: true exactly
when some paramflag has the out bit (2) set. -/
def catch_errors_has_outargs (paramflags : Option (List Nat)) : Bool :=
  match paramflags with
  | Option.none => false
  | some pf => decide (((pf.filter (fun f => f &&& 2 ≠ 0)).length : Nat) ≠ 0)

/-! ## `hack.call_without_this` (`_vtbl.py` lines 159-257)

The adapter used when the managed method only takes the semantically
meaningful arguments: input arguments are selected by direction flag,
the return value is written into the output slots, and failures are
translated as in `call_with_this` (with `COMError` additionally
formatted into a reported message). -/

/-- Indices of output arguments: direction flag has bit 2 set. -/
def args_out_idx (dirflags : List Nat) : List Nat :=
  (dirflags.enum.filter (fun p => p.2 &&& 2 ≠ 0)).map Prod.fst

/-- Indices of input arguments: direction flag has bit 1 set, or is
exactly 0 (no flags in the idl file means input). -/
def args_in_idx (dirflags : List Nat) : List Nat :=
  (dirflags.enum.filter (fun p => p.2 &&& 1 ≠ 0 || p.2 == 0)).map Prod.fst

/-- The message built by `call_without_this`'s `COMError` handler from
the exception's `details`: `"source: descr"` when details is a 5-tuple,
otherwise `str(details)`. -/
def comErrorMsg (details : PyVal) : String :=
  match details with
  | .tuple [descr, source, _helpfile, _helpcontext, _progid] =>
    pyStrOf source ++ ": " ++ pyStrOf descr
  | d => pyStrOf d

/-- Result of one adapted native call: the HRESULT handed back to the
native caller and the writes `args[i][0] = value` performed on the
output slots, in the order they were executed. -/
structure CallResult where
  hr : Int
  writes : List (Nat × PyVal)
deriving DecidableEq

/-- The `inargs` list built by `call_without_this`: the native argument
at each input index, in index order. -/
def inargsOf (paramflags : List Nat) (args : List PyVal) : List PyVal :=
  (args_in_idx paramflags).filterMap (fun i => args.get? i)

/-- The body of `call_without_this` from the managed call onwards:
distribute the return value over the output slots (single output:
written directly; several: the result must be a sequence of exactly
that length, a mismatch raises `ValueError` which the catch-all turns
into `E_FAIL`), and translate every exception class into its
HRESULT. -/
def call_without_this_outcome (paramflags : List Nat)
    (outcome : MethodOutcome PyVal) : CallResult :=
  let outIdx := args_out_idx paramflags
  let argsOut := outIdx.length
  match outcome with
  | .ok result =>
    if argsOut = 1 then
      ⟨S_OK, outIdx.map (fun i => (i, result))⟩
    else if argsOut ≠ 0 then
      match pyLen result, pyElems result with
      | some n, some elems =>
        if n ≠ argsOut then ⟨ReportException E_FAIL, []⟩
        else ⟨S_OK, outIdx.zip elems⟩
      | _, _ => ⟨ReportException E_FAIL, []⟩
    else ⟨S_OK, []⟩
  | .raisedReturnHRESULT hr text => ⟨ReportError text hr, []⟩
  | .raisedNative (.comError hr _text details) =>
    ⟨ReportError (comErrorMsg details) (HRESULT_FROM_WIN32 (some hr)), []⟩
  | .raisedNative (.windowsError code) =>
    ⟨ReportException (HRESULT_FROM_WIN32 (some (winerror (.windowsError code)))), []⟩
  | .raisedENotImplemented => ⟨E_NOTIMPL, []⟩
  | .raisedOther => ⟨ReportException E_FAIL, []⟩

/-- `call_without_this`: select the input arguments by direction index,
call the managed method, and process its outcome. -/
def call_without_this (paramflags : List Nat)
    (mth : List PyVal → MethodOutcome PyVal) (args : List PyVal) : CallResult :=
  call_without_this_outcome paramflags (mth (inargsOf paramflags args))

/-- `hack` chooses the adaptation: when `paramflags` is `None` or the
managed method's own first declared parameter (after `self`) is named
`this`, the raw `call_with_this` wrapper is used; otherwise the
argument-adapting `call_without_this` wrapper. -/
def hack_uses_call_with_this (paramflags : Option (List Nat))
    (co_varnames : List String) : Bool :=
  match paramflags with
  | Option.none => true
  | some _ => ((co_varnames.drop 1).take 1) == ["this"]

/-! ## Interfaces and the vtable builder
(`COMObject.__make_interface_pointer`, `_vtbl.py` lines 520-538)

An interface is a single-inheritance chain; `levels` is its Python
`__mro__` with the universal root `object` removed, most-derived level
first (so the last level is `IUnknown`).  Each level carries its 128-bit
identity and its ordered method-specification list. -/

/-- One entry of an interface's `_methods_` list: the components of the
`(restype, mthname, argtypes, paramflags, idlflags, helptext)` tuple
that determine the vtable slot (`idlflags` and `helptext` feed only the
implementation lookup and the docstring, never the slot layout). -/
structure MethodSpec where
  restype : String
  mthname : String
  argtypes : List String
  paramflags : Option (List Nat)
deriving DecidableEq

/-- One level of an interface's inheritance chain: its interface
identifier and its declared method specifications, in declaration
order. -/
structure InterfaceLevel where
  iid : Nat
  methods : List MethodSpec
deriving DecidableEq

/-- An interface: its `__mro__` minus the trailing `object`, most-derived
level first (Python guarantees single inheritance for COM interfaces, so
the mro is exactly the base chain). -/
structure Interface where
  levels : List InterfaceLevel
deriving DecidableEq

/-- `itf.__mro__[-2::-1]`: drop the universal root `object` and reverse,
yielding the chain from the most-base interface to the most-derived. -/
def Interface.mroTail (itf : Interface) : List InterfaceLevel :=
  itf.levels.reverse

/-- A virtual-function-table field `(mthname, WINFUNCTYPE(restype,
c_void_p, *argtypes))`: the slot name and its structural signature. -/
structure VtblField where
  mthname : String
  restype : String
  argtypes : List String
deriving DecidableEq

/-- The field built for one method specification. -/
def fieldOf (m : MethodSpec) : VtblField :=
  ⟨m.mthname, m.restype, m.argtypes⟩

/-- The builder loop of `__make_interface_pointer`: iterate over
`itf.__mro__[-2::-1]`, appending each level's iid to the identity list
and one field per declared method, in order, to the slot list. -/
def buildVtbl (itf : Interface) : List VtblField × List Nat :=
  itf.mroTail.foldl
    (fun acc level =>
      (acc.1 ++ level.methods.map fieldOf, acc.2 ++ [level.iid]))
    ([], [])

/-! ## Supported-interface assembly
(`COMObject.__prepare_comobject`, `_vtbl.py` lines 479-518) -/

/-- Interface identities as far as default-interface assembly is
concerned. -/
inductive ItfId where
  | iSupportErrorInfo
  | iProvideClassInfo
  | iProvideClassInfo2
  | iPersist
  | other (n : Nat)
deriving DecidableEq

/-- The class-level metadata `__prepare_comobject` inspects: the declared
`_com_interfaces_` list and whether the `_reg_typelib_`, `_reg_clsid_`
and `_outgoing_interfaces_` attributes are present. -/
structure ComClass where
  com_interfaces : List ItfId
  hasRegTypelib : Bool
  hasRegClsid : Bool
  hasOutgoingInterfaces : Bool
deriving DecidableEq

/-- The pattern `if X not in interfaces: interfaces += (X,)` used by
`__prepare_comobject` for every default interface. -/
def addIfAbsent (l : List ItfId) (a : ItfId) : List ItfId :=
  if a ∈ l then l else l ++ [a]

/-- The `interfaces` tuple assembled by `__prepare_comobject`: the
declared interfaces, then `ISupportErrorInfo` if absent, then — only
under `hasattr(self, "_reg_typelib_")` and `hasattr(self,
"_reg_clsid_")` — `IProvideClassInfo` if absent from the tuple, then
`IProvideClassInfo2` if `_outgoing_interfaces_` is also present, and
finally `IPersist` whenever `_reg_clsid_` is present. -/
def prepareInterfaces (c : ComClass) : List ItfId :=
  let i1 := addIfAbsent c.com_interfaces ItfId.iSupportErrorInfo
  let i2 :=
    if c.hasRegTypelib then
      if c.hasRegClsid then
        let iA := addIfAbsent i1 ItfId.iProvideClassInfo
        if c.hasOutgoingInterfaces then addIfAbsent iA ItfId.iProvideClassInfo2
        else iA
      else i1
    else i1
  if c.hasRegClsid then addIfAbsent i2 ItfId.iPersist else i2

/-- The order in which `__prepare_comobject` builds the interface
pointers: `for itf in interfaces[::-1]`, i.e. the assembled tuple in
reverse. -/
def prepareBuildOrder (c : ComClass) : List ItfId :=
  (prepareInterfaces c).reverse

/-! ## Reference counting and the live-instance registry
(`COMObject.IUnknown_AddRef` / `IUnknown_Release`, `_vtbl.py` lines
677-711, and `COMObject.__keep__` / `__unkeep__`, lines 653-670)

The observable state of one `COMObject` together with the process-wide
collaborators its lifecycle touches: `_refcnt` (a signed counter),
membership in `COMObject._instances_`, the hosting server's lock count,
whether `_com_pointers_` has been released, and event counters recording
how often registration, deregistration and `_final_release_` fired. -/

structure ObjState where
  refcnt : Int
  inRegistry : Bool
  serverLocks : Int
  comPointersCleared : Bool
  finalizeCount : Nat
  registerCount : Nat
  unregisterCount : Nat
deriving DecidableEq

/-- The state of a freshly prepared `COMObject`: "COM refcount starts at
zero", not yet registered, pointer map intact. -/
def initObjState : ObjState :=
  { refcnt := 0, inRegistry := false, serverLocks := 0,
    comPointersCleared := false, finalizeCount := 0,
    registerCount := 0, unregisterCount := 0 }

/-- `COMObject.__keep__`: add the object to the live-instance registry
`_instances_` and have the hosting server take a lock. -/
def keepObj (s : ObjState) : ObjState :=
  { s with inRegistry := true, registerCount := s.registerCount + 1,
           serverLocks := s.serverLocks + 1 }

/-- `COMObject.__unkeep__`: remove the object from the live-instance
registry and have the hosting server release a lock. -/
def unkeepObj (s : ObjState) : ObjState :=
  { s with inRegistry := false, unregisterCount := s.unregisterCount + 1,
           serverLocks := s.serverLocks - 1 }

/-- `COMObject._final_release_`: the overridable finalization hook
(default no-op); the model records that it fired. -/
def finalRelease (s : ObjState) : ObjState :=
  { s with finalizeCount := s.finalizeCount + 1 }

/-- `IUnknown_AddRef`: interlocked increment; exactly when the new count
is 1 the object is kept.  Returns the incremented count. -/
def IUnknown_AddRef (s : ObjState) : Int × ObjState :=
  let result := s.refcnt + 1
  let s1 := { s with refcnt := result }
  if result = 1 then (result, keepObj s1) else (result, s1)

/-- `IUnknown_Release`: interlocked decrement; exactly when the new count
is 0 the finalization hook runs, the object is unkept, and
`_com_pointers_` is reset to an empty map.  Returns the decremented
count. -/
def IUnknown_Release (s : ObjState) : Int × ObjState :=
  let result := s.refcnt - 1
  let s1 := { s with refcnt := result }
  if result = 0 then
    (result, { unkeepObj (finalRelease s1) with comPointersCleared := true })
  else (result, s1)

/-- One native call on the object's base interface affecting the count. -/
inductive RefOp where
  | addRef
  | release
deriving DecidableEq

/-- Run a sequence of AddRef/Release calls, threading the state. -/
def runRefOps : List RefOp → ObjState → ObjState
  | [], s => s
  | RefOp.addRef :: rest, s => runRefOps rest (IUnknown_AddRef s).2
  | RefOp.release :: rest, s => runRefOps rest (IUnknown_Release s).2

/-- A call sequence is valid from count `c` when no Release is issued at
count zero or below (well-behaved COM clients never over-release). -/
def validFrom : Int → List RefOp → Bool
  | _, [] => true
  | c, RefOp.addRef :: rest => validFrom (c + 1) rest
  | c, RefOp.release :: rest => decide (1 ≤ c) && validFrom (c - 1) rest

/-- The net effect of a call sequence on the count. -/
def netDelta : List RefOp → Int
  | [] => 0
  | RefOp.addRef :: rest => netDelta rest + 1
  | RefOp.release :: rest => netDelta rest - 1

/-- Number of 0→1 transitions (AddRef calls whose result is 1) in a call
sequence starting from count `c`. -/
def countUps : Int → List RefOp → Nat
  | _, [] => 0
  | c, RefOp.addRef :: rest => (if c + 1 = 1 then 1 else 0) + countUps (c + 1) rest
  | c, RefOp.release :: rest => countUps (c - 1) rest

/-- Number of transitions to 0 (Release calls whose result is 0) in a
call sequence starting from count `c`. -/
def countDowns : Int → List RefOp → Nat
  | _, [] => 0
  | c, RefOp.addRef :: rest => countDowns (c + 1) rest
  | c, RefOp.release :: rest => (if c - 1 = 0 then 1 else 0) + countDowns (c - 1) rest

/-! ## Interface querying (`COMObject.IUnknown_QueryInterface`,
`_vtbl.py` lines 713-729) -/

/-- Modelled from the spec: `_ctypes.CopyComPointer` (not under `src/`)
copies the source interface pointer into the destination slot, calls
`AddRef` on it, and returns `S_OK` ("return a reference-counted
pointer"). -/
def CopyComPointer (ptr : Nat) (refcnt : Int) : Int × Nat × Int :=
  (S_OK, ptr, refcnt + 1)

/-- Result of `IUnknown_QueryInterface`: the HRESULT, the pointer stored
into `*ppvObj` (if any), and the object's reference count afterwards. -/
structure QIResult where
  hr : Int
  ppvObj : Option Nat
  refcnt : Int
deriving DecidableEq

/-- `IUnknown_QueryInterface`: look the requested 128-bit identity up in
the fixed `_com_pointers_` map; on a hit, copy the pointer out (which
AddRefs) and return its `S_OK`; on a miss return `E_NOINTERFACE` leaving
the destination and the count untouched. -/
def IUnknown_QueryInterface (com_pointers : List (Nat × Nat)) (refcnt : Int)
    (riid : Nat) : QIResult :=
  match com_pointers.lookup riid with
  | some ptr =>
    let (hr, copied, refcnt1) := CopyComPointer ptr refcnt
    ⟨hr, some copied, refcnt1⟩
  | Option.none => ⟨E_NOINTERFACE, Option.none, refcnt⟩

/-! ## The method resolver (`_MethodFinder`, `_vtbl.py` lines 260-339,
and `_do_implement`, lines 101-107) -/

/-- An element of an idl-flags tuple: the numeric dispatch identifier or
a string flag such as `"propget"`, `"propput"`, `"readonly"`. -/
inductive IdlElem where
  | num (n : Int)
  | str (s : String)
deriving DecidableEq

/-- The managed instance as the resolver sees it: `dir(inst)` (in order)
and which attribute names `getattr` succeeds on. -/
structure PyInstance where
  dirNames : List String
  hasAttr : String → Bool

/-- The precomputed case-insensitive index
`{n.lower(): n for n in dir(inst)}`: for a lower-case key, the last name
in `dir(inst)` with that spelling (later comprehension entries
overwrite), or the default when no name matches. -/
def namesGet (dirNames : List String) (key : String) (dflt : String) : String :=
  match (dirNames.filter (fun n => n.toLower == key)).getLast? with
  | some n => n
  | Option.none => dflt

/-- `_MethodFinder.find_method`: `getattr` under the fully qualified
name first, then under the simple name; `Option.none` models the
`AttributeError` raised when both are missing.  The result records which
attribute the implementation was found under. -/
def find_method (inst : PyInstance) (fq_name mthname : String) : Option String :=
  if inst.hasAttr fq_name then some fq_name
  else if inst.hasAttr mthname then some mthname
  else Option.none

/-- What `_MethodFinder.find_impl` resolved a member to: a managed
attribute (by the name it was found under), or the property-accessor
fallback that reads/writes the plain attribute `propname`. -/
inductive Resolved where
  | found (attrName : String)
  | getterFallback (propname : String)
  | setterFallback (propname : String)
deriving DecidableEq

/-- `_MethodFinder.find_impl`: build the qualified name, correct both
names through the case-insensitive index when the interface asks for it,
try `find_method`; on failure, strip the 5-character accessor marker,
case-correct the property name, and fall back to plain attribute access
for `propget`/`propput` members declaring exactly one parameter;
otherwise resolve to nothing. -/
def find_impl (inst : PyInstance) (interfaceName : String)
    (caseInsensitive : Bool) (mthname0 : String)
    (paramflags : Option (List Nat)) (idlflags : List IdlElem) :
    Option Resolved :=
  let fq0 := interfaceName ++ "_" ++ mthname0
  let mthname :=
    if caseInsensitive then namesGet inst.dirNames mthname0.toLower mthname0
    else mthname0
  let fq_name :=
    if caseInsensitive then namesGet inst.dirNames fq0.toLower fq0 else fq0
  match find_method inst fq_name mthname with
  | some attr => some (Resolved.found attr)
  | Option.none =>
    let prop0 := mthname.drop 5
    let propname :=
      if caseInsensitive then namesGet inst.dirNames prop0.toLower prop0
      else prop0
    if IdlElem.str "propget" ∈ idlflags ∧ paramflags.map List.length = some 1 then
      some (Resolved.getterFallback propname)
    else if IdlElem.str "propput" ∈ idlflags ∧ paramflags.map List.length = some 1 then
      some (Resolved.setterFallback propname)
    else Option.none

/-- `_do_implement`: the sentinel handler installed for unimplemented
methods; invoking it returns `E_NOTIMPL` whatever the arguments. -/
def _do_implement (_interface_name _method_name : String) :
    List PyVal → Int :=
  fun _args => E_NOTIMPL

/-- What `_MethodFinder.get_impl` hands to the table builder: the
resolved implementation wrapped by `hack`, or the not-implemented
stub from `_do_implement`. -/
inductive GotImpl where
  | adapted (r : Resolved)
  | stub (interfaceName mthname : String)
deriving DecidableEq

/-- `_MethodFinder.get_impl`: resolve, and wrap the result — or install
the stub when resolution found nothing. -/
def get_impl (inst : PyInstance) (interfaceName : String)
    (caseInsensitive : Bool) (mthname : String)
    (paramflags : Option (List Nat)) (idlflags : List IdlElem) : GotImpl :=
  match find_impl inst interfaceName caseInsensitive mthname paramflags idlflags with
  | Option.none => GotImpl.stub interfaceName mthname
  | some r => GotImpl.adapted r

/-! ## The dispatch map
(`COMObject.__make_dispmthentry` / `__make_disppropentry` /
`__make_dispentry`, `_vtbl.py` lines 570-624) -/

def DISPATCH_METHOD : Nat := 1

def DISPATCH_PROPERTYGET : Nat := 2

def DISPATCH_PROPERTYPUT : Nat := 4

def DISPATCH_PROPERTYPUTREF : Nat := 8

/-- One element of a disp member's `argspec`:
`(idl-flag names, type, name)`. -/
structure ArgSpec where
  flags : List String
  ty : String
  argname : String
deriving DecidableEq

/-- Modelled from the spec: `comtypes._memberspec._encode_idl` (not under
`src/`) converts idl direction names to `F_xxx` bits and sums the
`"in"`, `"out"`, `"retval"` (and related) values found in `_PARAMFLAGS`,
ignoring other strings. -/
def _PARAMFLAGS (name : String) : Nat :=
  if name = "in" then 1
  else if name = "out" then 2
  else if name = "lcid" then 4
  else if name = "retval" then 8
  else if name = "optional" then 16
  else 0

/-- Modelled from the spec: sum of the `_PARAMFLAGS` values of the
names. -/
def _encode_idl (names : List String) : Nat := (names.map _PARAMFLAGS).sum

/-- A `_DispMemberSpec`: `(what, name, idlflags, restype, argspec)`;
`idlflags` starts with the numeric dispatch identifier. -/
structure DispMemberSpec where
  what : String
  name : String
  idlflags : List IdlElem
  restype : Option String
  argspec : List ArgSpec
deriving DecidableEq

/-- `idlflags[0]`, the member's dispatch identifier (every generated disp
member spec puts the dispid first; a malformed tuple yields nothing). -/
def dispidOf (idlflags : List IdlElem) : Option Int :=
  match idlflags.head? with
  | some (IdlElem.num n) => some n
  | _ => Option.none

/-- An adapted callable stored in the dispatch map: the implementation
and its `has_outargs` mark (absent on the stub, hence false). -/
structure DispCallable where
  impl : GotImpl
  has_outargs : Bool
deriving DecidableEq

/-- The `has_outargs` attribute read back from the wrapper built for
`impl`: set by `catch_errors`/`hack` exactly when some paramflag has the
out bit; `getattr(..., "has_outargs", False)` yields false for the
stub. -/
def dispCallableOf (g : GotImpl) (paramflags : Option (List Nat)) :
    DispCallable :=
  match g with
  | GotImpl.stub _ _ => ⟨g, false⟩
  | GotImpl.adapted _ => ⟨g, catch_errors_has_outargs paramflags⟩

/-- The `_dispimpl_` dictionary, keyed by `(dispid, invkind)`. -/
abbrev DispMap := List ((Int × Nat) × DispCallable)

/-- Python dict assignment: overwrite the value under an existing key,
append a new binding otherwise. -/
def mapInsert (m : DispMap) (k : Int × Nat) (v : DispCallable) : DispMap :=
  if (m.map Prod.fst).contains k then
    m.map (fun p => if p.1 = k then (k, v) else p)
  else m ++ [(k, v)]

/-- `COMObject.__make_dispentry`: encode the paramflags from the
argspec, extract the dispid, resolve the implementation, store it under
`(dispid, invkind)`, and — for `DISPATCH_METHOD` and
`DISPATCH_PROPERTYGET` — also under the combined
`DISPATCH_METHOD | DISPATCH_PROPERTYGET` key. -/
def make_dispentry (inst : PyInstance) (interfaceName : String)
    (caseInsensitive : Bool) (mthname : String) (idlflags : List IdlElem)
    (argspec : List ArgSpec) (invkind : Nat) (dispimpl : DispMap) : DispMap :=
  let paramflags := argspec.map (fun a => _encode_idl a.flags)
  match dispidOf idlflags with
  | Option.none => dispimpl
  | some dispid =>
    let impl := get_impl inst interfaceName caseInsensitive mthname
      (some paramflags) idlflags
    let mth := dispCallableOf impl (some paramflags)
    let m1 := mapInsert dispimpl (dispid, invkind) mth
    if invkind = DISPATCH_METHOD ∨ invkind = DISPATCH_PROPERTYGET then
      mapInsert m1 (dispid, DISPATCH_METHOD ||| DISPATCH_PROPERTYGET) mth
    else m1

/-- `COMObject.__make_dispmthentry`: a `DISPMETHOD` becomes a
property-get, property-put, property-put-by-reference or plain method
entry according to its idl flags; a plain method with a return type gets
an implicit trailing out parameter. -/
def make_dispmthentry (inst : PyInstance) (interfaceName : String)
    (caseInsensitive : Bool) (m : DispMemberSpec) (dispimpl : DispMap) :
    DispMap :=
  if IdlElem.str "propget" ∈ m.idlflags then
    make_dispentry inst interfaceName caseInsensitive ("_get_" ++ m.name)
      m.idlflags m.argspec DISPATCH_PROPERTYGET dispimpl
  else if IdlElem.str "propput" ∈ m.idlflags then
    make_dispentry inst interfaceName caseInsensitive ("_set_" ++ m.name)
      m.idlflags m.argspec DISPATCH_PROPERTYPUT dispimpl
  else if IdlElem.str "propputref" ∈ m.idlflags then
    make_dispentry inst interfaceName caseInsensitive ("_setref_" ++ m.name)
      m.idlflags m.argspec DISPATCH_PROPERTYPUTREF dispimpl
  else
    let argspec :=
      match m.restype with
      | some rt => m.argspec ++ [⟨["out"], rt, ""⟩]
      | Option.none => m.argspec
    make_dispentry inst interfaceName caseInsensitive m.name m.idlflags
      argspec DISPATCH_METHOD dispimpl

/-- `COMObject.__make_disppropentry`: a `DISPPROPERTY` has an implicit
out parameter for its type; it always gets a property-get entry, and a
property-put entry only when its idl flags do not contain
`"readonly"`. -/
def make_disppropentry (inst : PyInstance) (interfaceName : String)
    (caseInsensitive : Bool) (m : DispMemberSpec) (dispimpl : DispMap) :
    DispMap :=
  let argspec :=
    match m.restype with
    | some rt => m.argspec ++ [⟨["out"], rt, ""⟩]
    | Option.none => m.argspec
  let d1 := make_dispentry inst interfaceName caseInsensitive
    ("_get_" ++ m.name) m.idlflags argspec DISPATCH_PROPERTYGET dispimpl
  if IdlElem.str "readonly" ∈ m.idlflags then d1
  else
    make_dispentry inst interfaceName caseInsensitive ("_set_" ++ m.name)
      m.idlflags argspec DISPATCH_PROPERTYPUT d1

/-! ## Late-bound invocation (`COMObject.IDispatch_Invoke`, `_vtbl.py`
lines 810-903, the branch where `_dispimpl_` exists) -/

/-- The native `DISPPARAMS` block: the argument value array, the
named-argument dispid index array, and the two counts. -/
structure DISPPARAMS where
  rgvarg : Nat → PyVal
  rgdispidNamedArgs : Nat → Nat
  cArgs : Nat
  cNamedArgs : Nat

/-- The observable outcome of `IDispatch_Invoke`: an early HRESULT, or a
dispatch to an adapted callable with the unpacked argument values and
whether the caller's result slot was appended as a trailing argument. -/
inductive InvokeResult where
  | hrReturn (hr : Int)
  | dispatched (mth : DispCallable) (args : List PyVal)
      (resultSlotAppended : Bool)
deriving DecidableEq

/-- `IDispatch_Invoke` (with a `_dispimpl_` map built): look up
`(dispIdMember, wFlags)` — a miss is `DISP_E_MEMBERNOTFOUND`.  For
property-put flavors, pass the named-argument values in reverse index
order and ignore `pVarResult`.  Otherwise pass the values at the
positions in `rgdispidNamedArgs`, then the unnamed values in descending
index order, appending the result slot only when one was supplied and
the callable has output arguments. -/
def IDispatch_Invoke (dispimpl : DispMap) (dispIdMember : Int)
    (wFlags : Nat) (params : DISPPARAMS) (pVarResultNonNull : Bool) :
    InvokeResult :=
  match List.lookup (dispIdMember, wFlags) dispimpl with
  | Option.none => InvokeResult.hrReturn DISP_E_MEMBERNOTFOUND
  | some mth =>
    if wFlags &&& (DISPATCH_PROPERTYPUT ||| DISPATCH_PROPERTYPUTREF) ≠ 0 then
      let args := ((List.range params.cNamedArgs).reverse).map params.rgvarg
      InvokeResult.dispatched mth args false
    else
      let named_indexes :=
        (List.range params.cNamedArgs).map params.rgdispidNamedArgs
      let num_unnamed := params.cArgs - params.cNamedArgs
      let unnamed_indexes := (List.range num_unnamed).reverse
      let indexes := named_indexes ++ unnamed_indexes
      let args := indexes.map params.rgvarg
      InvokeResult.dispatched mth args
        (pVarResultNonNull && mth.has_outargs)

/-! ## Concrete sample data used by the witnesses -/

/-- A concrete dispatch-map entry for exercising the invocation engine:
a resolved stub marked as having output arguments, under dispid 1. -/
def sampleCallable : DispCallable := ⟨GotImpl.stub "IFoo" "Bar", true⟩

/-- A concrete argument block: values 0,1,2 at positions 0,1,2, three
arguments, none of them named. -/
def sampleParams : DISPPARAMS := ⟨fun i => PyVal.int i, fun i => i, 3, 0⟩

/-- A dispatch map holding `sampleCallable` under the method key. -/
def sampleDispMap : DispMap := [((1, DISPATCH_METHOD), sampleCallable)]

/-- A dispatch map holding `sampleCallable` under the property-put
key. -/
def samplePutDispMap : DispMap := [((1, DISPATCH_PROPERTYPUT), sampleCallable)]

/-- A concrete argument block with one named argument. -/
def samplePutParams : DISPPARAMS := ⟨fun i => PyVal.int i, fun i => i, 1, 1⟩

/-- A concrete managed instance implementing only the bare name
`Bar`. -/
def sampleInstance : PyInstance := ⟨["Bar"], fun n => n == "Bar"⟩

/-- A concrete read-only `DISPPROPERTY` member with dispid 10. -/
def sampleROProp : DispMemberSpec :=
  ⟨"DISPPROPERTY", "Value", [IdlElem.num 10, IdlElem.str "readonly"],
    some "VT_I4", []⟩


/-! # Theorems settling the claims -/

/-- C1 (counterexample).  The claim's clause "a managed method that
returns None yields the success code S_OK" fails on the code: in the
argument-adapting adapter with two declared output parameters, `None`
has no length, so the length check raises and the catch-all yields the
generic failure `E_FAIL`, not `S_OK`. -/
theorem C1_counterexample :
    (call_without_this [2, 2] (fun _ => MethodOutcome.ok PyVal.none)
        [PyVal.none, PyVal.none]).hr = E_FAIL ∧ E_FAIL ≠ S_OK := by
  decide

/-- C1 (amended).  Every failure of the managed method is converted
to a result code at the boundary, in both adapters: `ReturnHRESULT(code,
text)` yields that code (the message is handed to the error-reporting
side channel), `E_NotImplemented` yields `E_NOTIMPL`, a
`COMError`/`WindowsError` is normalized through
`HRESULT_FROM_WIN32`/`winerror`, any other exception yields `E_FAIL`;
a managed method that returns `None` yields `S_OK` in the raw adapter
always, and in the argument-adapting adapter whenever at most one
output parameter is declared. -/
theorem C1_failure_translation :
    (∀ hr text,
      call_with_this (MethodOutcome.raisedReturnHRESULT hr text) = hr) ∧
    (call_with_this MethodOutcome.raisedENotImplemented = E_NOTIMPL) ∧
    (∀ e, call_with_this (MethodOutcome.raisedNative e) =
      HRESULT_FROM_WIN32 (some (winerror e))) ∧
    (call_with_this MethodOutcome.raisedOther = E_FAIL) ∧
    (call_with_this (MethodOutcome.ok Option.none) = S_OK) ∧
    (∀ pf hr text,
      (call_without_this_outcome pf
        (MethodOutcome.raisedReturnHRESULT hr text)).hr = hr) ∧
    (∀ pf, (call_without_this_outcome pf
      MethodOutcome.raisedENotImplemented).hr = E_NOTIMPL) ∧
    (∀ pf hr text details,
      (call_without_this_outcome pf
        (MethodOutcome.raisedNative (NativeError.comError hr text details))).hr =
      HRESULT_FROM_WIN32 (some hr)) ∧
    (∀ pf code,
      (call_without_this_outcome pf
        (MethodOutcome.raisedNative (NativeError.windowsError code))).hr =
      HRESULT_FROM_WIN32 (some (winerror (NativeError.windowsError code)))) ∧
    (∀ pf, (call_without_this_outcome pf MethodOutcome.raisedOther).hr = E_FAIL) ∧
    (∀ pf, (args_out_idx pf).length ≤ 1 →
      (call_without_this_outcome pf (MethodOutcome.ok PyVal.none)).hr = S_OK) := by
  refine ⟨fun hr text => rfl, rfl, fun e => rfl, rfl, rfl,
    fun pf hr text => rfl, fun pf => rfl, fun pf hr text details => rfl,
    fun pf code => rfl, fun pf => rfl, fun pf h => ?_⟩
  rcases Nat.le_one_iff_eq_zero_or_eq_one.mp h with h0 | h1
  · simp [call_without_this_outcome, h0]
  · simp [call_without_this_outcome, h1]

/-- Witness for C1: the amended theorem applied at the one-output flag
list `[2]`, discharging the at-most-one-output hypothesis. -/
theorem C1_witness :
    (args_out_idx [2]).length ≤ 1 ∧
    (call_without_this_outcome [2] (MethodOutcome.ok PyVal.none)).hr = S_OK :=
  ⟨by decide,
    C1_failure_translation.2.2.2.2.2.2.2.2.2.2 [2] (by decide)⟩

/-- The builder loop appends one field block per level and one iid per
level, in iteration order. -/
theorem buildVtbl_loop (ls : List InterfaceLevel) (a : List VtblField)
    (b : List Nat) :
    ls.foldl
      (fun acc level =>
        (acc.1 ++ level.methods.map fieldOf, acc.2 ++ [level.iid]))
      (a, b)
    = (a ++ (ls.map (fun l => l.methods.map fieldOf)).flatten,
       b ++ ls.map InterfaceLevel.iid) := by
  induction ls generalizing a b with
  | nil => simp
  | cons l ls ih => simp [ih]

/-- C2.  For every interface, the vtable built by
`__make_interface_pointer` has exactly one slot per method summed over
the full inheritance chain (the universal root `object` is excluded by
the `[-2::-1]` slice), the slots appear base-interface-first with each
level's methods in declaration order, and one interface identity is
recorded per level in the same order. -/
theorem C2_vtbl_layout (itf : Interface) :
    (buildVtbl itf).1.length
      = (itf.levels.map (fun l => l.methods.length)).sum ∧
    (buildVtbl itf).1
      = (itf.mroTail.map (fun l => l.methods.map fieldOf)).flatten ∧
    (buildVtbl itf).2 = itf.mroTail.map InterfaceLevel.iid := by
  have h := buildVtbl_loop itf.mroTail [] []
  rw [buildVtbl]
  rw [h]
  refine ⟨?_, by simp, by simp⟩
  simp only [List.nil_append, List.length_flatten, List.map_map]
  rw [Interface.mroTail, List.map_reverse, List.sum_reverse]
  congr 1
  apply List.map_congr_left
  intro l _
  simp

/-- C3.  When the managed method's own first declared parameter is
not the identity pointer, `hack` installs the argument-adapting wrapper;
with exactly one declared output the managed return value is written
into that slot; with several, the return value must be a sequence of
exactly the output count, each element written to its slot in declared
order; a length mismatch yields `E_FAIL`, which is distinct from
`E_NOTIMPL`. -/
theorem C3_output_mapping :
    (∀ pf varnames, (varnames.drop 1).take 1 ≠ ["this"] →
      hack_uses_call_with_this (some pf) varnames = false) ∧
    (∀ pf i r, args_out_idx pf = [i] →
      call_without_this_outcome pf (MethodOutcome.ok r) = ⟨S_OK, [(i, r)]⟩) ∧
    (∀ pf xs, 2 ≤ (args_out_idx pf).length →
      xs.length = (args_out_idx pf).length →
      call_without_this_outcome pf (MethodOutcome.ok (PyVal.tuple xs)) =
        ⟨S_OK, (args_out_idx pf).zip xs⟩) ∧
    (∀ pf xs, 2 ≤ (args_out_idx pf).length →
      xs.length ≠ (args_out_idx pf).length →
      (call_without_this_outcome pf
        (MethodOutcome.ok (PyVal.tuple xs))).hr = E_FAIL) ∧
    E_FAIL ≠ E_NOTIMPL := by
  refine ⟨?_, ?_, ?_, ?_, by decide⟩
  · intro pf varnames h
    simpa [hack_uses_call_with_this] using h
  · intro pf i r h
    simp [call_without_this_outcome, h]
  · intro pf xs h2 hlen
    have h1 : (args_out_idx pf).length ≠ 1 := by omega
    have h0 : (args_out_idx pf).length ≠ 0 := by omega
    simp [call_without_this_outcome, h1, h0, pyLen, pyElems, hlen]
  · intro pf xs h2 hlen
    have h1 : (args_out_idx pf).length ≠ 1 := by omega
    have h0 : (args_out_idx pf).length ≠ 0 := by omega
    simp [call_without_this_outcome, h1, h0, pyLen, pyElems, hlen,
      ReportException]

/-- Witness for C3: the two-output case at flags `[2, 2]` with a matching
two-element result, populating both slots in declared order. -/
theorem C3_witness :
    2 ≤ (args_out_idx [2, 2]).length ∧
    ([PyVal.int 1, PyVal.int 2] : List PyVal).length
      = (args_out_idx [2, 2]).length ∧
    call_without_this_outcome [2, 2]
        (MethodOutcome.ok (PyVal.tuple [PyVal.int 1, PyVal.int 2]))
      = ⟨S_OK, (args_out_idx [2, 2]).zip [PyVal.int 1, PyVal.int 2]⟩ :=
  ⟨by decide, by decide,
    C3_output_mapping.2.2.1 [2, 2] [PyVal.int 1, PyVal.int 2]
      (by decide) (by decide)⟩

/-- Membership in the result of the add-if-absent step. -/
theorem mem_addIfAbsent (l : List ItfId) (a x : ItfId) :
    x ∈ addIfAbsent l a ↔ x ∈ l ∨ x = a := by
  unfold addIfAbsent
  split_ifs with h
  · constructor
    · exact Or.inl
    · rintro (hx | rfl)
      · exact hx
      · exact h
  · simp [List.mem_append]

/-- The add-if-absent step only ever appends to the right. -/
theorem addIfAbsent_factor (l l0 : List ItfId) (a : ItfId)
    (h : ∃ ds, l = l0 ++ ds) : ∃ ds, addIfAbsent l a = l0 ++ ds := by
  obtain ⟨ds, rfl⟩ := h
  unfold addIfAbsent
  split_ifs
  · exact ⟨ds, rfl⟩
  · exact ⟨ds ++ [a], by simp⟩

/-- The assembled interface tuple keeps the declared interfaces as its
front segment. -/
theorem prepareInterfaces_append (c : ComClass) :
    ∃ ds, prepareInterfaces c = c.com_interfaces ++ ds := by
  simp only [prepareInterfaces]
  split_ifs <;>
    (repeat' apply addIfAbsent_factor) <;> exact ⟨[], by simp⟩

/-- C4 (counterexample).  The claim "the persistence (IPersist) and
class-info (IProvideClassInfo) interfaces are added whenever the object
declares a registered class identity" fails on the code: with a
registered class identity but no registered type library,
`IProvideClassInfo` is not added (the whole class-info block sits under
the `_reg_typelib_` check). -/
theorem C4_counterexample :
    (ComClass.mk [] false true false).hasRegClsid = true ∧
    ItfId.iProvideClassInfo ∉ prepareInterfaces (ComClass.mk [] false true false) := by
  decide

/-- C4 (amended).  The supported-interface set equals the declared
`_com_interfaces_` plus defaults: `ISupportErrorInfo` always;
`IPersist` whenever a registered class identity is declared;
`IProvideClassInfo` only when a registered type library and a class
identity are both declared; `IProvideClassInfo2` when outgoing/event
interfaces are additionally declared.  The declared interfaces form the
front of the assembled tuple and tables are built over the reversed
tuple, so the declared interfaces are built after — and their pointers
overwrite — the automatically added defaults. -/
theorem C4_interface_assembly (c : ComClass) :
    (∀ x, x ∈ prepareInterfaces c ↔
      (x ∈ c.com_interfaces ∨ x = ItfId.iSupportErrorInfo ∨
       (x = ItfId.iProvideClassInfo ∧ c.hasRegTypelib = true ∧
         c.hasRegClsid = true) ∨
       (x = ItfId.iProvideClassInfo2 ∧ c.hasRegTypelib = true ∧
         c.hasRegClsid = true ∧ c.hasOutgoingInterfaces = true) ∨
       (x = ItfId.iPersist ∧ c.hasRegClsid = true))) ∧
    (∃ defaults, prepareInterfaces c = c.com_interfaces ++ defaults ∧
      prepareBuildOrder c = defaults.reverse ++ c.com_interfaces.reverse) := by
  constructor
  · intro x
    simp only [prepareInterfaces]
    split_ifs <;> simp_all [mem_addIfAbsent] <;> tauto
  · obtain ⟨ds, hds⟩ := prepareInterfaces_append c
    exact ⟨ds, hds, by rw [prepareBuildOrder, hds, List.reverse_append]⟩

/-- A lookup in an association list succeeds exactly for its keys. -/
theorem lookup_mem_keys {α β : Type} [BEq α] [LawfulBEq α]
    (l : List (α × β))
    (a : α) : (List.lookup a l).isSome ↔ a ∈ l.map Prod.fst := by
  induction l with
  | nil => simp [List.lookup]
  | cons p l ih =>
    rcases p with ⟨k, v⟩
    simp only [List.lookup, List.map_cons, List.mem_cons]
    by_cases h : a = k
    · simp [h]
    · have hb : (a == k) = false := beq_eq_false_iff_ne.mpr h
      simp [hb, ih, h]

/-- C6.  `IUnknown_QueryInterface` hands out a reference-counted
pointer with `S_OK` exactly when the requested identity is a key of the
object's table-pointer map, and returns `E_NOINTERFACE` (writing
nothing and leaving the count alone) for every other identity — the
all-zero identity included, since it is treated like any other
non-key. -/
theorem C6_query_interface (com_pointers : List (Nat × Nat)) (refcnt : Int)
    (riid : Nat) :
    ((∃ p, IUnknown_QueryInterface com_pointers refcnt riid =
        ⟨S_OK, some p, refcnt + 1⟩) ↔ riid ∈ com_pointers.map Prod.fst) ∧
    (riid ∉ com_pointers.map Prod.fst →
      IUnknown_QueryInterface com_pointers refcnt riid =
        ⟨E_NOINTERFACE, Option.none, refcnt⟩) := by
  have hkey := lookup_mem_keys com_pointers riid
  constructor
  · constructor
    · rintro ⟨p, hp⟩
      rw [← hkey]
      rw [IUnknown_QueryInterface] at hp
      cases hlk : List.lookup riid com_pointers with
      | none =>
        rw [hlk] at hp
        simp only [QIResult.mk.injEq] at hp
        exact absurd hp.1 (by decide)
      | some ptr => simp [hlk]
    · intro hm
      obtain ⟨ptr, hlk⟩ := Option.isSome_iff_exists.mp (hkey.mpr hm)
      exact ⟨ptr, by simp [IUnknown_QueryInterface, hlk, CopyComPointer]⟩
  · intro hm
    have hnone : List.lookup riid com_pointers = Option.none := by
      rcases h : List.lookup riid com_pointers with _ | v
      · rfl
      · exact absurd (hkey.mp (by simp [h])) hm
    simp [IUnknown_QueryInterface, hnone]

/-- Witness for C6: a map holding only identity 5; querying identity 7
misses and yields `E_NOINTERFACE` with nothing written. -/
theorem C6_witness :
    (7 : Nat) ∉ ([(5, 100)] : List (Nat × Nat)).map Prod.fst ∧
    IUnknown_QueryInterface [(5, 100)] 0 7 =
      ⟨E_NOINTERFACE, Option.none, 0⟩ :=
  ⟨by decide, (C6_query_interface [(5, 100)] 0 7).2 (by decide)⟩

/-- C7.  For a method / property-get invocation that resolves in the
dispatch map, the adapted callable receives first the values at the
positions named by `rgdispidNamedArgs`, then the unnamed values in
descending index order (highest index first); in particular with 0
named and n unnamed arguments the values are passed in exact reverse
order of their positions in `rgvarg`. -/
theorem C7_invoke_arg_order (dispimpl : DispMap) (dispIdMember : Int)
    (wFlags : Nat) (params : DISPPARAMS) (pv : Bool) (mth : DispCallable)
    (hlk : List.lookup (dispIdMember, wFlags) dispimpl = some mth)
    (hfl : wFlags &&& (DISPATCH_PROPERTYPUT ||| DISPATCH_PROPERTYPUTREF) = 0) :
    IDispatch_Invoke dispimpl dispIdMember wFlags params pv =
      InvokeResult.dispatched mth
        (((List.range params.cNamedArgs).map params.rgdispidNamedArgs).map
            params.rgvarg ++
          ((List.range (params.cArgs - params.cNamedArgs)).reverse).map
            params.rgvarg)
        (pv && mth.has_outargs) ∧
    (params.cNamedArgs = 0 →
      IDispatch_Invoke dispimpl dispIdMember wFlags params pv =
        InvokeResult.dispatched mth
          (((List.range params.cArgs).reverse).map params.rgvarg)
          (pv && mth.has_outargs)) := by
  constructor
  · simp [IDispatch_Invoke, hlk, hfl]
  · intro h0
    simp [IDispatch_Invoke, hlk, hfl, h0]

/-- Witness for C7: 3 unnamed arguments, 0 named — the callable receives
the values in exact reverse position order. -/
theorem C7_witness :
    List.lookup ((1 : Int), DISPATCH_METHOD) sampleDispMap =
      some sampleCallable ∧
    DISPATCH_METHOD &&& (DISPATCH_PROPERTYPUT ||| DISPATCH_PROPERTYPUTREF) = 0 ∧
    sampleParams.cNamedArgs = 0 ∧
    IDispatch_Invoke sampleDispMap 1 DISPATCH_METHOD sampleParams true =
      InvokeResult.dispatched sampleCallable
        (((List.range sampleParams.cArgs).reverse).map sampleParams.rgvarg)
        (true && sampleCallable.has_outargs) :=
  ⟨rfl, rfl, rfl,
    (C7_invoke_arg_order sampleDispMap 1 DISPATCH_METHOD sampleParams true
      sampleCallable rfl rfl).2 rfl⟩

/-- C8.  For a property-put / property-put-by-reference invocation
that resolves in the dispatch map, the adapted callable receives exactly
the named-argument values (their count equals `cNamedArgs`, no unnamed
extras) and the caller's result slot is never appended — even when a
non-null `pVarResult` was supplied. -/
theorem C8_propput_no_result_slot (dispimpl : DispMap) (dispIdMember : Int)
    (wFlags : Nat) (params : DISPPARAMS) (pv : Bool) (mth : DispCallable)
    (hlk : List.lookup (dispIdMember, wFlags) dispimpl = some mth)
    (hfl : wFlags &&& (DISPATCH_PROPERTYPUT ||| DISPATCH_PROPERTYPUTREF) ≠ 0) :
    IDispatch_Invoke dispimpl dispIdMember wFlags params pv =
      InvokeResult.dispatched mth
        (((List.range params.cNamedArgs).reverse).map params.rgvarg) false ∧
    (((List.range params.cNamedArgs).reverse).map params.rgvarg).length
      = params.cNamedArgs := by
  constructor
  · simp [IDispatch_Invoke, hlk, hfl]
  · simp

/-- Witness for C8: a property-put with a supplied result slot
(`pVarResult` non-null) still dispatches with no result slot appended
and only the named value. -/
theorem C8_witness :
    List.lookup ((1 : Int), DISPATCH_PROPERTYPUT) samplePutDispMap =
      some sampleCallable ∧
    DISPATCH_PROPERTYPUT &&& (DISPATCH_PROPERTYPUT ||| DISPATCH_PROPERTYPUTREF) ≠ 0 ∧
    IDispatch_Invoke samplePutDispMap 1 DISPATCH_PROPERTYPUT samplePutParams
        true =
      InvokeResult.dispatched sampleCallable
        (((List.range samplePutParams.cNamedArgs).reverse).map
          samplePutParams.rgvarg) false :=
  ⟨rfl, by decide,
    (C8_propput_no_result_slot samplePutDispMap 1 DISPATCH_PROPERTYPUT
      samplePutParams true sampleCallable rfl (by decide)).1⟩

/-- C9.  The resolver tries the qualified `Interface_Member` name
first, then the bare member name (both corrected through the
precomputed lower-case index when the interface is case-insensitive);
when neither attribute exists it falls back, for `propget`/`propput`
members declaring exactly one parameter, to plain attribute access
under the un-prefixed property name; when nothing is found it resolves
to the not-implemented stub, whose invocation returns `E_NOTIMPL`
(never raising). -/
theorem C9_method_resolution (inst : PyInstance) (interfaceName : String)
    (ci : Bool) (mthname0 : String) (pf : Option (List Nat))
    (idl : List IdlElem) :
    let fq0 := interfaceName ++ "_" ++ mthname0
    let mthname :=
      if ci then namesGet inst.dirNames mthname0.toLower mthname0 else mthname0
    let fq := if ci then namesGet inst.dirNames fq0.toLower fq0 else fq0
    let prop0 := mthname.drop 5
    let propname :=
      if ci then namesGet inst.dirNames prop0.toLower prop0 else prop0
    (inst.hasAttr fq = true →
      find_impl inst interfaceName ci mthname0 pf idl =
        some (Resolved.found fq)) ∧
    (inst.hasAttr fq = false → inst.hasAttr mthname = true →
      find_impl inst interfaceName ci mthname0 pf idl =
        some (Resolved.found mthname)) ∧
    (inst.hasAttr fq = false → inst.hasAttr mthname = false →
      IdlElem.str "propget" ∈ idl → pf.map List.length = some 1 →
      find_impl inst interfaceName ci mthname0 pf idl =
        some (Resolved.getterFallback propname)) ∧
    (inst.hasAttr fq = false → inst.hasAttr mthname = false →
      IdlElem.str "propget" ∉ idl → IdlElem.str "propput" ∈ idl →
      pf.map List.length = some 1 →
      find_impl inst interfaceName ci mthname0 pf idl =
        some (Resolved.setterFallback propname)) ∧
    (inst.hasAttr fq = false → inst.hasAttr mthname = false →
      ¬(IdlElem.str "propget" ∈ idl ∧ pf.map List.length = some 1) →
      ¬(IdlElem.str "propput" ∈ idl ∧ pf.map List.length = some 1) →
      find_impl inst interfaceName ci mthname0 pf idl = Option.none ∧
      get_impl inst interfaceName ci mthname0 pf idl =
        GotImpl.stub interfaceName mthname0) ∧
    (∀ iname mname args, _do_implement iname mname args = E_NOTIMPL) := by
  refine ⟨?_, ?_, ?_, ?_, ?_, fun _ _ _ => rfl⟩
  · intro h
    simp [find_impl, find_method, h]
  · intro h1 h2
    simp [find_impl, find_method, h1, h2]
  · intro h1 h2 hget hlen
    simp [find_impl, find_method, h1, h2, hget, hlen]
  · intro h1 h2 hnget hput hlen
    simp [find_impl, find_method, h1, h2, hnget, hput, hlen]
  · intro h1 h2 hng hnp
    have hfind :
        find_impl inst interfaceName ci mthname0 pf idl = Option.none := by
      simp only [find_impl, find_method, h1, h2]
      rw [if_neg hng, if_neg hnp]
      simp
    exact ⟨hfind, by simp [get_impl, hfind]⟩

/-- Witness for C9: the qualified name `IFoo_Bar` is absent, so the
resolver finds the bare member `Bar`. -/
theorem C9_witness :
    sampleInstance.hasAttr ("IFoo" ++ "_" ++ "Bar") = false ∧
    sampleInstance.hasAttr "Bar" = true ∧
    find_impl sampleInstance "IFoo" false "Bar" Option.none [] =
      some (Resolved.found "Bar") :=
  ⟨by decide, by decide,
    (C9_method_resolution sampleInstance "IFoo" false "Bar" Option.none
      []).2.1 (by decide) (by decide)⟩

/-- C10.  For a `DISPPROPERTY` member whose idl flags contain
`"readonly"`, only the property-get entry and the combined
method|property-get entry are registered in the dispatch map; no
property-put entry exists, so a late-bound property-put invocation on
that dispid misses the map and returns `DISP_E_MEMBERNOTFOUND`. -/
theorem C10_readonly_dispproperty (inst : PyInstance)
    (interfaceName : String) (ci : Bool) (m : DispMemberSpec) (dispid : Int)
    (hread : IdlElem.str "readonly" ∈ m.idlflags)
    (hdid : dispidOf m.idlflags = some dispid)
    (params : DISPPARAMS) (pv : Bool) :
    (make_disppropentry inst interfaceName ci m []).map Prod.fst =
      [(dispid, DISPATCH_PROPERTYGET),
       (dispid, DISPATCH_METHOD ||| DISPATCH_PROPERTYGET)] ∧
    List.lookup (dispid, DISPATCH_PROPERTYPUT)
      (make_disppropentry inst interfaceName ci m []) = Option.none ∧
    IDispatch_Invoke (make_disppropentry inst interfaceName ci m []) dispid
      DISPATCH_PROPERTYPUT params pv =
      InvokeResult.hrReturn DISP_E_MEMBERNOTFOUND := by
  have hkeys : (make_disppropentry inst interfaceName ci m []).map Prod.fst =
      [(dispid, DISPATCH_PROPERTYGET),
       (dispid, DISPATCH_METHOD ||| DISPATCH_PROPERTYGET)] := by
    cases hr : m.restype <;>
      simp [make_disppropentry, make_dispentry, hdid, hread, hr, mapInsert,
        DISPATCH_METHOD, DISPATCH_PROPERTYGET]
  have hnone : List.lookup (dispid, DISPATCH_PROPERTYPUT)
      (make_disppropentry inst interfaceName ci m []) = Option.none := by
    have hmem : (dispid, DISPATCH_PROPERTYPUT) ∉
        (make_disppropentry inst interfaceName ci m []).map Prod.fst := by
      rw [hkeys]
      simp [DISPATCH_PROPERTYPUT, DISPATCH_PROPERTYGET, DISPATCH_METHOD]
    rcases h : List.lookup (dispid, DISPATCH_PROPERTYPUT)
        (make_disppropentry inst interfaceName ci m []) with _ | v
    · rfl
    · have hs : (List.lookup (dispid, DISPATCH_PROPERTYPUT)
          (make_disppropentry inst interfaceName ci m [])).isSome = true := by
        rw [h]
        rfl
      exact absurd ((lookup_mem_keys _ _).mp hs) hmem
  exact ⟨hkeys, hnone, by simp [IDispatch_Invoke, hnone]⟩

/-- Witness for C10: invoking a property-put on the read-only property's
dispid returns `DISP_E_MEMBERNOTFOUND`. -/
theorem C10_witness :
    IdlElem.str "readonly" ∈ sampleROProp.idlflags ∧
    dispidOf sampleROProp.idlflags = some 10 ∧
    IDispatch_Invoke
        (make_disppropentry sampleInstance "IThing" false sampleROProp [])
        10 DISPATCH_PROPERTYPUT samplePutParams true =
      InvokeResult.hrReturn DISP_E_MEMBERNOTFOUND :=
  ⟨by decide, by decide,
    (C10_readonly_dispproperty sampleInstance "IThing" false sampleROProp 10
      (by decide) (by decide) samplePutParams true).2.2⟩

/-- The state invariant carried through a valid AddRef/Release
sequence: the event counters advance by the number of 0→1 / →0
transitions, the count tracks the net delta and stays non-negative,
registry membership tracks count positivity, and the pointer map is
cleared exactly when some transition to 0 happened. -/
theorem runRefOps_spec (ops : List RefOp) : ∀ s : ObjState,
    validFrom s.refcnt ops = true →
    (s.inRegistry = true ↔ 0 < s.refcnt) →
    0 ≤ s.refcnt →
    (runRefOps ops s).registerCount =
      s.registerCount + countUps s.refcnt ops ∧
    (runRefOps ops s).unregisterCount =
      s.unregisterCount + countDowns s.refcnt ops ∧
    (runRefOps ops s).finalizeCount =
      s.finalizeCount + countDowns s.refcnt ops ∧
    (runRefOps ops s).serverLocks =
      s.serverLocks + (countUps s.refcnt ops : Int) -
        (countDowns s.refcnt ops : Int) ∧
    (runRefOps ops s).refcnt = s.refcnt + netDelta ops ∧
    0 ≤ (runRefOps ops s).refcnt ∧
    ((runRefOps ops s).inRegistry = true ↔ 0 < (runRefOps ops s).refcnt) ∧
    ((runRefOps ops s).comPointersCleared = true ↔
      (s.comPointersCleared = true ∨ 0 < countDowns s.refcnt ops)) := by
  induction ops with
  | nil =>
    intro s _ hreg hnn
    simp only [runRefOps, countUps, countDowns, netDelta]
    exact ⟨by omega, by omega, by omega, by omega, by omega, hnn, hreg,
      by simp⟩
  | cons op rest ih =>
    intro s hv hreg hnn
    cases op with
    | addRef =>
      have hv' : validFrom (s.refcnt + 1) rest = true := hv
      by_cases hc : s.refcnt + 1 = 1
      · have hrun : runRefOps (RefOp.addRef :: rest) s =
            runRefOps rest (keepObj { s with refcnt := s.refcnt + 1 }) := by
          simp [runRefOps, IUnknown_AddRef, hc]
        have hreg1 : ((keepObj { s with refcnt := s.refcnt + 1 }).inRegistry
            = true ↔ 0 < (keepObj { s with refcnt := s.refcnt + 1 }).refcnt) := by
          show true = true ↔ 0 < s.refcnt + 1
          simp
          omega
        have hnn1 : (0 : Int) ≤ (keepObj { s with refcnt := s.refcnt + 1 }).refcnt := by
          show (0 : Int) ≤ s.refcnt + 1
          omega
        obtain ⟨i1, i2, i3, i4, i5, i6, i7, i8⟩ := ih _ hv' hreg1 hnn1
        rw [hrun]
        refine ⟨?_, ?_, ?_, ?_, ?_, i6, i7, ?_⟩
        · rw [i1]
          show s.registerCount + 1 + countUps (s.refcnt + 1) rest = _
          simp only [countUps, if_pos hc]
          omega
        · rw [i2]
          show s.unregisterCount + countDowns (s.refcnt + 1) rest = _
          simp only [countDowns]
        · rw [i3]
          show s.finalizeCount + countDowns (s.refcnt + 1) rest = _
          simp only [countDowns]
        · rw [i4]
          show s.serverLocks + 1 + (countUps (s.refcnt + 1) rest : Int) -
              (countDowns (s.refcnt + 1) rest : Int) = _
          simp only [countUps, countDowns, if_pos hc]
          push_cast
          omega
        · rw [i5]
          show s.refcnt + 1 + netDelta rest = _
          simp only [netDelta]
          omega
        · exact i8
      · have hrun : runRefOps (RefOp.addRef :: rest) s =
            runRefOps rest { s with refcnt := s.refcnt + 1 } := by
          simp [runRefOps, IUnknown_AddRef, hc]
        have hreg1 : (({ s with refcnt := s.refcnt + 1 } : ObjState).inRegistry
            = true ↔ 0 < ({ s with refcnt := s.refcnt + 1 } : ObjState).refcnt) := by
          show s.inRegistry = true ↔ 0 < s.refcnt + 1
          constructor
          · intro h
            have := hreg.mp h
            omega
          · intro h
            exact hreg.mpr (by omega)
        have hnn1 : (0 : Int) ≤ ({ s with refcnt := s.refcnt + 1 } : ObjState).refcnt := by
          show (0 : Int) ≤ s.refcnt + 1
          omega
        obtain ⟨i1, i2, i3, i4, i5, i6, i7, i8⟩ := ih _ hv' hreg1 hnn1
        rw [hrun]
        refine ⟨?_, ?_, ?_, ?_, ?_, i6, i7, ?_⟩
        · rw [i1]
          show s.registerCount + countUps (s.refcnt + 1) rest = _
          simp only [countUps, if_neg hc]
          omega
        · rw [i2]
          show s.unregisterCount + countDowns (s.refcnt + 1) rest = _
          simp only [countDowns]
        · rw [i3]
          show s.finalizeCount + countDowns (s.refcnt + 1) rest = _
          simp only [countDowns]
        · rw [i4]
          show s.serverLocks + (countUps (s.refcnt + 1) rest : Int) -
              (countDowns (s.refcnt + 1) rest : Int) = _
          simp only [countUps, countDowns, if_neg hc]
          push_cast
          omega
        · rw [i5]
          show s.refcnt + 1 + netDelta rest = _
          simp only [netDelta]
          omega
        · exact i8
    | release =>
      simp only [validFrom, Bool.and_eq_true, decide_eq_true_eq] at hv
      obtain ⟨hge, hv'⟩ := hv
      by_cases hc : s.refcnt - 1 = 0
      · have hrun : runRefOps (RefOp.release :: rest) s =
            runRefOps rest
              { unkeepObj (finalRelease { s with refcnt := s.refcnt - 1 }) with
                  comPointersCleared := true } := by
          simp [runRefOps, IUnknown_Release, hc]
        have hreg1 :
            (({ unkeepObj (finalRelease { s with refcnt := s.refcnt - 1 }) with
                comPointersCleared := true } : ObjState).inRegistry = true ↔
              0 < ({ unkeepObj (finalRelease { s with refcnt := s.refcnt - 1 }) with
                comPointersCleared := true } : ObjState).refcnt) := by
          show false = true ↔ 0 < s.refcnt - 1
          simp
          omega
        have hnn1 : (0 : Int) ≤
            ({ unkeepObj (finalRelease { s with refcnt := s.refcnt - 1 }) with
                comPointersCleared := true } : ObjState).refcnt := by
          show (0 : Int) ≤ s.refcnt - 1
          omega
        obtain ⟨i1, i2, i3, i4, i5, i6, i7, i8⟩ := ih _ hv' hreg1 hnn1
        rw [hrun]
        refine ⟨?_, ?_, ?_, ?_, ?_, i6, i7, ?_⟩
        · rw [i1]
          show s.registerCount + countUps (s.refcnt - 1) rest = _
          simp only [countUps]
        · rw [i2]
          show s.unregisterCount + 1 + countDowns (s.refcnt - 1) rest = _
          simp only [countDowns, if_pos hc]
          omega
        · rw [i3]
          show s.finalizeCount + 1 + countDowns (s.refcnt - 1) rest = _
          simp only [countDowns, if_pos hc]
          omega
        · rw [i4]
          show s.serverLocks - 1 + (countUps (s.refcnt - 1) rest : Int) -
              (countDowns (s.refcnt - 1) rest : Int) = _
          simp only [countUps, countDowns, if_pos hc]
          push_cast
          omega
        · rw [i5]
          show s.refcnt - 1 + netDelta rest = _
          simp only [netDelta]
          omega
        · constructor
          · intro _
            right
            show 0 < (if s.refcnt - 1 = 0 then 1 else 0) + countDowns (s.refcnt - 1) rest
            rw [if_pos hc]
            omega
          · intro _
            exact i8.mpr (Or.inl rfl)
      · have hrun : runRefOps (RefOp.release :: rest) s =
            runRefOps rest { s with refcnt := s.refcnt - 1 } := by
          simp [runRefOps, IUnknown_Release, hc]
        have hreg1 : (({ s with refcnt := s.refcnt - 1 } : ObjState).inRegistry
            = true ↔ 0 < ({ s with refcnt := s.refcnt - 1 } : ObjState).refcnt) := by
          show s.inRegistry = true ↔ 0 < s.refcnt - 1
          constructor
          · intro h
            omega
          · intro h
            exact hreg.mpr (by omega)
        have hnn1 : (0 : Int) ≤ ({ s with refcnt := s.refcnt - 1 } : ObjState).refcnt := by
          show (0 : Int) ≤ s.refcnt - 1
          omega
        obtain ⟨i1, i2, i3, i4, i5, i6, i7, i8⟩ := ih _ hv' hreg1 hnn1
        rw [hrun]
        refine ⟨?_, ?_, ?_, ?_, ?_, i6, i7, ?_⟩
        · rw [i1]
          show s.registerCount + countUps (s.refcnt - 1) rest = _
          simp only [countUps]
        · rw [i2]
          show s.unregisterCount + countDowns (s.refcnt - 1) rest = _
          simp only [countDowns, if_neg hc]
          omega
        · rw [i3]
          show s.finalizeCount + countDowns (s.refcnt - 1) rest = _
          simp only [countDowns, if_neg hc]
          omega
        · rw [i4]
          show s.serverLocks + (countUps (s.refcnt - 1) rest : Int) -
              (countDowns (s.refcnt - 1) rest : Int) = _
          simp only [countUps, countDowns, if_neg hc]
          push_cast
          omega
        · rw [i5]
          show s.refcnt - 1 + netDelta rest = _
          simp only [netDelta]
          omega
        · rw [i8]
          show _ ↔ (s.comPointersCleared = true ∨
            0 < (if s.refcnt - 1 = 0 then 1 else 0) + countDowns (s.refcnt - 1) rest)
          rw [if_neg hc]
          simp

/-- C5.  Over any valid AddRef/Release call sequence from a fresh
object: AddRef returns the incremented count and registers the object
(adding it to the live-instance registry and taking a server lock)
exactly on a 0→1 transition; Release returns the decremented count and,
exactly on reaching 0, runs the finalization hook, deregisters,
releases the per-interface pointer map and releases a server lock —
registration, deregistration and finalization each fire exactly once
per 0→1→…→0 lifecycle (their counts equal the number of such
transitions in the trace). -/
theorem C5_refcount_lifecycle (ops : List RefOp)
    (h : validFrom 0 ops = true) :
    ((runRefOps ops initObjState).registerCount = countUps 0 ops ∧
     (runRefOps ops initObjState).unregisterCount = countDowns 0 ops ∧
     (runRefOps ops initObjState).finalizeCount = countDowns 0 ops ∧
     (runRefOps ops initObjState).serverLocks =
       (countUps 0 ops : Int) - (countDowns 0 ops : Int) ∧
     ((runRefOps ops initObjState).inRegistry = true ↔
       0 < (runRefOps ops initObjState).refcnt) ∧
     ((runRefOps ops initObjState).comPointersCleared = true ↔
       0 < countDowns 0 ops)) ∧
    (∀ t : ObjState,
      (IUnknown_AddRef t).1 = t.refcnt + 1 ∧
      (IUnknown_Release t).1 = t.refcnt - 1 ∧
      (IUnknown_AddRef t).2.registerCount =
        t.registerCount + (if t.refcnt + 1 = 1 then 1 else 0) ∧
      (IUnknown_AddRef t).2.serverLocks =
        t.serverLocks + (if t.refcnt + 1 = 1 then 1 else 0) ∧
      (IUnknown_Release t).2.unregisterCount =
        t.unregisterCount + (if t.refcnt - 1 = 0 then 1 else 0) ∧
      (IUnknown_Release t).2.finalizeCount =
        t.finalizeCount + (if t.refcnt - 1 = 0 then 1 else 0) ∧
      (IUnknown_Release t).2.serverLocks =
        t.serverLocks - (if t.refcnt - 1 = 0 then 1 else 0) ∧
      (IUnknown_Release t).2.comPointersCleared =
        (t.comPointersCleared || decide (t.refcnt - 1 = 0))) := by
  constructor
  · obtain ⟨i1, i2, i3, i4, i5, i6, i7, i8⟩ :=
      runRefOps_spec ops initObjState h (by simp [initObjState])
        (by simp [initObjState])
    refine ⟨?_, ?_, ?_, ?_, i7, ?_⟩
    · rw [i1]
      simp [initObjState]
    · rw [i2]
      simp [initObjState]
    · rw [i3]
      simp [initObjState]
    · rw [i4]
      simp [initObjState]
    · rw [i8]
      simp [initObjState]
  · intro t
    refine ⟨?_, ?_, ?_, ?_, ?_, ?_, ?_, ?_⟩
    · by_cases hc : t.refcnt + 1 = 1 <;>
        simp [IUnknown_AddRef, keepObj, hc]
    · by_cases hc : t.refcnt - 1 = 0 <;>
        simp [IUnknown_Release, unkeepObj, finalRelease, hc]
    · by_cases hc : t.refcnt + 1 = 1 <;>
        simp [IUnknown_AddRef, keepObj, hc]
    · by_cases hc : t.refcnt + 1 = 1 <;>
        simp [IUnknown_AddRef, keepObj, hc]
    · by_cases hc : t.refcnt - 1 = 0 <;>
        simp [IUnknown_Release, unkeepObj, finalRelease, hc]
    · by_cases hc : t.refcnt - 1 = 0 <;>
        simp [IUnknown_Release, unkeepObj, finalRelease, hc]
    · by_cases hc : t.refcnt - 1 = 0 <;>
        simp [IUnknown_Release, unkeepObj, finalRelease, hc]
    · by_cases hc : t.refcnt - 1 = 0 <;>
        simp [IUnknown_Release, unkeepObj, finalRelease, hc]

/-- Witness for C5: the lifecycle 0→1→2→1→0 registers once, deregisters
once, finalizes once, and ends with the pointer map released. -/
theorem C5_witness :
    validFrom 0 [RefOp.addRef, RefOp.addRef, RefOp.release, RefOp.release]
      = true ∧
    (runRefOps [RefOp.addRef, RefOp.addRef, RefOp.release, RefOp.release]
        initObjState).registerCount =
      countUps 0 [RefOp.addRef, RefOp.addRef, RefOp.release, RefOp.release] :=
  ⟨by decide,
    (C5_refcount_lifecycle
      [RefOp.addRef, RefOp.addRef, RefOp.release, RefOp.release]
      (by decide)).1.1⟩

end Comtypes
